import Mathlib

/-
Formal model of the ECU-BIN-Reader diagnostic stack.

Shallow embedding of the Python sources:
  src/protocols/uds.py        (UDSProtocol)
  src/protocols/kwp.py        (KWPProtocol)
  src/security/security_access.py (SecurityAccess)
  src/core/ecu_manager.py     (ECUManger: scan_ecus, probe_ecu, read_bin_file)

Conventions of the embedding:
- Python byte strings become `List Nat` (each element a byte value).
- Python `None` / absent responses become `Option`.
- The CAN transport is abstracted by oracles: a function from the index of
  the transmit/receive exchange (or from the probed address) to the raw
  reply frame, `Option (List Nat)`, where `none` models a send failure or
  a receive timeout.  All other control flow is translated statement by
  statement from the source.
- `time.sleep` calls are recorded as events in an emitted trace.
- Loops whose termination depends on the environment (`read_bin_file`'s
  while loop) take a fuel argument; fuel exhaustion is reported as a
  distinct exit kind and corresponds to the Python loop still running.
-/

set_option maxRecDepth 4096

/-! ## Response records (the dicts built by the protocol parsers) -/

/-- Parsed diagnostic response, modelling the dict produced by
`UDSProtocol._parse_uds_response` / `KWPProtocol._parse_kwp_response`:
`positive` carries the `sid` entry (`None` when the frame had no second
byte) and the `data` payload; `negative` carries `sid`, `nrc` and the
human-readable description string. -/
inductive UDSResponse where
  | positive (sid : Option Nat) (data : List Nat)
  | negative (sid : Nat) (nrc : Nat) (error : String)
deriving DecidableEq, Repr

/-- Truthiness of `response and response.get('positive')` on an optional
parsed response. -/
def isPositiveResponse : Option UDSResponse → Bool
  | some (.positive _ _) => true
  | _ => false

/-- Python `response.get('nrc')`: only negative dicts carry an `nrc` key. -/
def nrcOfResponse : Option UDSResponse → Option Nat
  | some (.negative _ nrc _) => some nrc
  | _ => none

/-- Python `response.get('data', b'')`: positive dicts carry payload,
negative dicts have no `data` key. -/
def dataOfResponse : UDSResponse → List Nat
  | .positive _ d => d
  | .negative _ _ _ => []

/-! ## Hex formatting helpers (Python format specs such as 02X and 03X) -/

/-- Uppercase hexadecimal rendering of a natural number (Python `X`). -/
def toHexUpper (n : Nat) : String :=
  String.mk ((Nat.toDigits 16 n).map Char.toUpper)

/-- Left-pad a string with zeros to the given width (Python `0<w>X`). -/
def padZero (w : Nat) (s : String) : String :=
  String.mk (List.replicate (w - s.length) '0') ++ s

/-! ## UDSProtocol (src/protocols/uds.py) -/

namespace UDSProtocol

/-- Constant `self.NRC_POSITIVE_RESPONSE` from `UDSProtocol.__init__`. -/
def NRC_POSITIVE_RESPONSE : Nat := 0x40

/-- Constant `self.SID_SECURITY_ACCESS`. -/
def SID_SECURITY_ACCESS : Nat := 0x27

/-- `UDSProtocol._get_nrc_description`: table lookup with a formatted
fallback for unknown codes. -/
def get_nrc_description (nrc : Nat) : String :=
  if nrc = 0x11 then "Service not supported"
  else if nrc = 0x12 then "Sub-function not supported"
  else if nrc = 0x13 then "Incorrect message length"
  else if nrc = 0x22 then "Conditions not correct"
  else if nrc = 0x24 then "Request sequence error"
  else if nrc = 0x33 then "Security access denied"
  else if nrc = 0x35 then "Invalid key"
  else if nrc = 0x36 then "Exceeded number of attempts"
  else if nrc = 0x37 then "Required time delay not expired"
  else if nrc = 0x72 then "General programming failure"
  else if nrc = 0x73 then "Wrong block sequence counter"
  else if nrc = 0x7F then "Request correctly received, response pending"
  else "Unknown NRC: 0x" ++ padZero 2 (toHexUpper nrc)

/-- `UDSProtocol._parse_uds_response`.  The source checks
`data[0] == self.NRC_POSITIVE_RESPONSE` (the constant 0x40) for a
positive response, reading `sid` from `data[1]` and the payload from
`data[2:]`; a first byte of 0x7F with at least three bytes is a negative
response; anything else parses to `None`. -/
def parse_uds_response (data : List Nat) : Option UDSResponse :=
  match data with
  | [] => none
  | b0 :: rest =>
    if b0 = NRC_POSITIVE_RESPONSE then
      some (.positive rest.head? (rest.drop 1))
    else if b0 = 0x7F then
      match rest with
      | sid :: nrc :: _ => some (.negative sid nrc (get_nrc_description nrc))
      | _ => none
    else none

/-- `UDSProtocol._format_address`: a length byte (1 to 4) followed by that
many big-endian bytes, choosing the branch by value range. -/
def format_address (address : Nat) : List Nat :=
  if address ≤ 0xFF then
    [0x01, address]
  else if address ≤ 0xFFFF then
    [0x02, (address >>> 8) &&& 0xFF, address &&& 0xFF]
  else if address ≤ 0xFFFFFF then
    [0x03, (address >>> 16) &&& 0xFF, (address >>> 8) &&& 0xFF, address &&& 0xFF]
  else
    [0x04, (address >>> 24) &&& 0xFF, (address >>> 16) &&& 0xFF,
      (address >>> 8) &&& 0xFF, address &&& 0xFF]

/-- `UDSProtocol._format_size`: textually identical to `_format_address`. -/
def format_size (size : Nat) : List Nat :=
  if size ≤ 0xFF then
    [0x01, size]
  else if size ≤ 0xFFFF then
    [0x02, (size >>> 8) &&& 0xFF, size &&& 0xFF]
  else if size ≤ 0xFFFFFF then
    [0x03, (size >>> 16) &&& 0xFF, (size >>> 8) &&& 0xFF, size &&& 0xFF]
  else
    [0x04, (size >>> 24) &&& 0xFF, (size >>> 16) &&& 0xFF,
      (size >>> 8) &&& 0xFF, size &&& 0xFF]

end UDSProtocol

/-! ## KWPProtocol (src/protocols/kwp.py) -/

namespace KWPProtocol

/-- Constant `self.NRC_POSITIVE_RESPONSE` from `KWPProtocol.__init__`. -/
def NRC_POSITIVE_RESPONSE : Nat := 0xC1

/-- Constant `self.SID_SECURITY_ACCESS` (KWP uses 0xE1). -/
def SID_SECURITY_ACCESS : Nat := 0xE1

/-- `KWPProtocol._get_nrc_description` (shorter table than UDS). -/
def get_nrc_description (nrc : Nat) : String :=
  if nrc = 0x11 then "Service not supported"
  else if nrc = 0x12 then "Sub-function not supported"
  else if nrc = 0x13 then "Incorrect message length"
  else if nrc = 0x22 then "Conditions not correct"
  else if nrc = 0x24 then "Request sequence error"
  else if nrc = 0x33 then "Security access denied"
  else if nrc = 0x35 then "Invalid key"
  else if nrc = 0x36 then "Exceeded number of attempts"
  else if nrc = 0x37 then "Required time delay not expired"
  else "Unknown NRC: 0x" ++ padZero 2 (toHexUpper nrc)

/-- `KWPProtocol._parse_kwp_response`: positive marker is the constant
0xC1, negative introducer is 0xBF; otherwise the same shape as the UDS
parser. -/
def parse_kwp_response (data : List Nat) : Option UDSResponse :=
  match data with
  | [] => none
  | b0 :: rest =>
    if b0 = NRC_POSITIVE_RESPONSE then
      some (.positive rest.head? (rest.drop 1))
    else if b0 = 0xBF then
      match rest with
      | sid :: nrc :: _ => some (.negative sid nrc (get_nrc_description nrc))
      | _ => none
    else none

/-- `KWPProtocol._format_address`: textually identical to the UDS one. -/
def format_address (address : Nat) : List Nat :=
  if address ≤ 0xFF then
    [0x01, address]
  else if address ≤ 0xFFFF then
    [0x02, (address >>> 8) &&& 0xFF, address &&& 0xFF]
  else if address ≤ 0xFFFFFF then
    [0x03, (address >>> 16) &&& 0xFF, (address >>> 8) &&& 0xFF, address &&& 0xFF]
  else
    [0x04, (address >>> 24) &&& 0xFF, (address >>> 16) &&& 0xFF,
      (address >>> 8) &&& 0xFF, address &&& 0xFF]

/-- `KWPProtocol._format_size`: textually identical to the UDS one. -/
def format_size (size : Nat) : List Nat :=
  if size ≤ 0xFF then
    [0x01, size]
  else if size ≤ 0xFFFF then
    [0x02, (size >>> 8) &&& 0xFF, size &&& 0xFF]
  else if size ≤ 0xFFFFFF then
    [0x03, (size >>> 16) &&& 0xFF, (size >>> 8) &&& 0xFF, size &&& 0xFF]
  else
    [0x04, (size >>> 24) &&& 0xFF, (size >>> 16) &&& 0xFF,
      (size >>> 8) &&& 0xFF, size &&& 0xFF]

end KWPProtocol

/-! ## Reference decoder for the length-prefixed encoding

The spec describes the encoding as "a single length byte (1 to 4)
followed by that many big-endian bytes".  This decoder follows those
words: read the length byte, then interpret exactly that many following
bytes as a big-endian value. -/

/-- Reference decoder from the spec: a length byte followed by that many
big-endian bytes. -/
def decode_length_prefixed (bytes : List Nat) : Option Nat :=
  match bytes with
  | [] => none
  | n :: rest =>
    if rest.length = n then
      some (rest.foldl (fun acc b => acc * 256 + b) 0)
    else none

/-! ## SecurityAccess (src/security/security_access.py) -/

namespace SecurityAccess

/-- Type of a seed/key derivation: `(seed, level) -> optional key`. -/
def AlgFn : Type := List Nat → Nat → Option (List Nat)

/-- `SecurityAccess._default_seed_key_algorithm`: per-byte
`seed[i] ^ 0x55 ^ level` into a fresh bytearray.  A computed value that
does not fit in a byte makes the Python bytearray assignment raise
`ValueError`, which the surrounding `except` turns into `None`; the
`all` guard models that. -/
def default_seed_key_algorithm : AlgFn := fun seed level =>
  if seed = [] then none
  else
    let key := seed.map (fun b => b ^^^ 0x55 ^^^ level)
    if key.all (· < 256) then some key else none

/-- Serialise a 32-bit word big-endian (Python `int.to_bytes(4, 'big')`);
values of 2^32 or more raise `OverflowError`, hence `none`. -/
def to_bytes_4_big (v : Nat) : Option (List Nat) :=
  if v < 2 ^ 32 then
    some [(v >>> 24) &&& 0xFF, (v >>> 16) &&& 0xFF, (v >>> 8) &&& 0xFF, v &&& 0xFF]
  else none

/-- Big-endian value of the first four seed bytes
(Python `int.from_bytes(seed[:4], 'big')`). -/
def from_bytes_4_big (seed : List Nat) : Nat :=
  (seed.take 4).foldl (fun acc b => acc * 256 + b) 0

/-- 32-bit rotate left by `r` (the `((x << r) | (x >> (32 - r))) & 0xFFFFFFFF`
pattern of the vendor algorithms). -/
def rotl32 (x r : Nat) : Nat :=
  ((x <<< r) ||| (x >>> (32 - r))) &&& 0xFFFFFFFF

/-- `SecurityAccess._bmw_seed_key_algorithm`. -/
def bmw_seed_key_algorithm : AlgFn := fun seed level =>
  if seed.length < 4 then none
  else
    let s := from_bytes_4_big seed
    let k := ((s * 0x12345678 + 0x87654321) &&& 0xFFFFFFFF) ^^^ level
    to_bytes_4_big k

/-- `SecurityAccess._audi_seed_key_algorithm`. -/
def audi_seed_key_algorithm : AlgFn := fun seed level =>
  if seed.length < 4 then none
  else
    let s := from_bytes_4_big seed
    let k := rotl32 ((s + 0x12345678) &&& 0xFFFFFFFF) 3 ^^^ level
    to_bytes_4_big k

/-- `SecurityAccess._mercedes_seed_key_algorithm`. -/
def mercedes_seed_key_algorithm : AlgFn := fun seed level =>
  if seed.length < 4 then none
  else
    let s := from_bytes_4_big seed
    let k := rotl32 ((s * 0x23456789) &&& 0xFFFFFFFF) 7 ^^^ level
    to_bytes_4_big k

/-- `SecurityAccess._volkswagen_seed_key_algorithm`. -/
def volkswagen_seed_key_algorithm : AlgFn := fun seed level =>
  if seed.length < 4 then none
  else
    let s := from_bytes_4_big seed
    let k := rotl32 ((s ^^^ 0x34567890) &&& 0xFFFFFFFF) 5 + level
    to_bytes_4_big k

/-- `SecurityAccess._toyota_seed_key_algorithm`. -/
def toyota_seed_key_algorithm : AlgFn := fun seed level =>
  if seed.length < 4 then none
  else
    let s := from_bytes_4_big seed
    let k := rotl32 ((s + 0x45678901) &&& 0xFFFFFFFF) 11 ^^^ level
    to_bytes_4_big k

/-- `SecurityAccess._honda_seed_key_algorithm`. -/
def honda_seed_key_algorithm : AlgFn := fun seed level =>
  if seed.length < 4 then none
  else
    let s := from_bytes_4_big seed
    let k := rotl32 ((s * 0x56789012) &&& 0xFFFFFFFF) 13 + level
    to_bytes_4_big k

/-- `SecurityAccess._ford_seed_key_algorithm`. -/
def ford_seed_key_algorithm : AlgFn := fun seed level =>
  if seed.length < 4 then none
  else
    let s := from_bytes_4_big seed
    let k := rotl32 ((s ^^^ 0x67890123) &&& 0xFFFFFFFF) 17 ^^^ level
    to_bytes_4_big k

/-- `SecurityAccess._gm_seed_key_algorithm`. -/
def gm_seed_key_algorithm : AlgFn := fun seed level =>
  if seed.length < 4 then none
  else
    let s := from_bytes_4_big seed
    let k := rotl32 ((s + 0x78901234) &&& 0xFFFFFFFF) 19 + level
    to_bytes_4_big k

/-- The registry `self.seed_key_algorithms` built in
`SecurityAccess.__init__`, as an association list in insertion order. -/
def seed_key_algorithms : List (String × AlgFn) :=
  [("default", default_seed_key_algorithm),
   ("bmw", bmw_seed_key_algorithm),
   ("audi", audi_seed_key_algorithm),
   ("mercedes", mercedes_seed_key_algorithm),
   ("volkswagen", volkswagen_seed_key_algorithm),
   ("toyota", toyota_seed_key_algorithm),
   ("honda", honda_seed_key_algorithm),
   ("ford", ford_seed_key_algorithm),
   ("gm", gm_seed_key_algorithm)]

/-- `self.seed_key_algorithms.get(algorithm, self._default_seed_key_algorithm)`. -/
def lookup_algorithm (algorithm : String) : AlgFn :=
  (seed_key_algorithms.lookup algorithm).getD default_seed_key_algorithm

/-- Observable actions of the negotiator: frames handed to
`can_bus.send_message` and `time.sleep` pauses (seconds). -/
inductive SAEvent where
  | send (frame : List Nat)
  | sleep (seconds : Nat)
deriving DecidableEq, Repr

/-- `UDSProtocol.send_security_access` driven by a reply oracle indexed
by the number of frames sent so far.  Odd level: send `[0x27, level]`.
Even level: a missing or empty key returns `None` without sending,
otherwise send `[0x27, level] + key`.  The reply frame (if any) goes
through `_parse_uds_response`.  Returns the parsed response, the next
oracle index and the emitted events. -/
def uds_send_security_access (oracle : Nat → Option (List Nat)) (k : Nat)
    (level : Nat) (key : Option (List Nat)) :
    Option UDSResponse × Nat × List SAEvent :=
  if level % 2 = 1 then
    ((oracle k).bind UDSProtocol.parse_uds_response, k + 1,
      [.send ([UDSProtocol.SID_SECURITY_ACCESS, level])])
  else
    match key with
    | none => (none, k, [])
    | some ks =>
      if ks = [] then (none, k, [])
      else
        ((oracle k).bind UDSProtocol.parse_uds_response, k + 1,
          [.send ([UDSProtocol.SID_SECURITY_ACCESS, level] ++ ks)])

/-- `KWPProtocol.send_security_access`: same shape with SID 0xE1 and the
KWP parser. -/
def kwp_send_security_access (oracle : Nat → Option (List Nat)) (k : Nat)
    (level : Nat) (key : Option (List Nat)) :
    Option UDSResponse × Nat × List SAEvent :=
  if level % 2 = 1 then
    ((oracle k).bind KWPProtocol.parse_kwp_response, k + 1,
      [.send ([KWPProtocol.SID_SECURITY_ACCESS, level])])
  else
    match key with
    | none => (none, k, [])
    | some ks =>
      if ks = [] then (none, k, [])
      else
        ((oracle k).bind KWPProtocol.parse_kwp_response, k + 1,
          [.send ([KWPProtocol.SID_SECURITY_ACCESS, level] ++ ks)])

/-- The sub-function used to request the seed for a level,
`level if level % 2 == 1 else level - 1`. -/
def seed_level (level : Nat) : Nat :=
  if level % 2 = 1 then level else level - 1

/-- The sub-function used to send the key for a level,
`level if level % 2 == 0 else level + 1`. -/
def key_level (level : Nat) : Nat :=
  if level % 2 = 0 then level else level + 1

/-- `SecurityAccess._perform_security_level`, parameterised by the
protocol send function so the UDS and KWP variants share one body each
(the two Python methods are line-for-line parallel).  Returns success,
the next oracle index, and the event trace. -/
def perform_security_level_with
    (send : (Nat → Option (List Nat)) → Nat → Nat → Option (List Nat) →
      Option UDSResponse × Nat × List SAEvent)
    (oracle : Nat → Option (List Nat)) (alg : AlgFn) (k : Nat) (level : Nat) :
    Bool × Nat × List SAEvent :=
  let seedStep := send oracle k (seed_level level) none
  let seed_response := seedStep.1
  let k1 := seedStep.2.1
  let ev1 := seedStep.2.2
  match seed_response with
  | none => (false, k1, ev1)
  | some r =>
    match r with
    | .negative _ _ _ => (false, k1, ev1)
    | .positive _ seed_data =>
      if seed_data = [] then (false, k1, ev1)
      else
        match alg seed_data level with
        | none => (false, k1, ev1)
        | some key =>
          if key = [] then (false, k1, ev1)
          else
            let keyStep := send oracle k1 (key_level level) (some key)
            let key_response := keyStep.1
            let k2 := keyStep.2.1
            let ev2 := keyStep.2.2
            if isPositiveResponse key_response then (true, k2, ev1 ++ ev2)
            else if nrcOfResponse key_response = some 0x37 then
              let retryStep := send oracle k2 (key_level level) (some key)
              (isPositiveResponse retryStep.1, retryStep.2.1,
                ev1 ++ ev2 ++ [.sleep 1] ++ retryStep.2.2)
            else (false, k2, ev1 ++ ev2)

/-- `SecurityAccess._perform_security_level` (UDS flavour). -/
def perform_security_level (oracle : Nat → Option (List Nat)) (alg : AlgFn)
    (k : Nat) (level : Nat) : Bool × Nat × List SAEvent :=
  perform_security_level_with uds_send_security_access oracle alg k level

/-- `SecurityAccess._perform_kwp_security_level`. -/
def perform_kwp_security_level (oracle : Nat → Option (List Nat)) (alg : AlgFn)
    (k : Nat) (level : Nat) : Bool × Nat × List SAEvent :=
  perform_security_level_with kwp_send_security_access oracle alg k level

/-- The `for level in [1, 2, 3, 5, 7]` loop shared by
`perform_uds_security_access` and `perform_kwp_security_access`:
attempt each level in order, stopping at the first success. -/
def perform_levels
    (attempt : (Nat → Option (List Nat)) → AlgFn → Nat → Nat →
      Bool × Nat × List SAEvent)
    (oracle : Nat → Option (List Nat)) (alg : AlgFn) :
    List Nat → Nat → Bool × Nat × List SAEvent
  | [], k => (false, k, [])
  | level :: rest, k =>
    let step := attempt oracle alg k level
    if step.1 then (true, step.2.1, step.2.2)
    else
      let next := perform_levels attempt oracle alg rest step.2.1
      (next.1, next.2.1, step.2.2 ++ next.2.2)

/-- The level list tried by both negotiators. -/
def security_levels : List Nat := [1, 2, 3, 5, 7]

/-- `SecurityAccess.perform_uds_security_access`: look the algorithm up
by name (defaulting to the XOR algorithm) and try the levels in order. -/
def perform_uds_security_access (oracle : Nat → Option (List Nat))
    (algorithm : String) : Bool × Nat × List SAEvent :=
  perform_levels perform_security_level oracle (lookup_algorithm algorithm)
    security_levels 0

/-- `SecurityAccess.perform_kwp_security_access`. -/
def perform_kwp_security_access (oracle : Nat → Option (List Nat))
    (algorithm : String) : Bool × Nat × List SAEvent :=
  perform_levels perform_kwp_security_level oracle (lookup_algorithm algorithm)
    security_levels 0

end SecurityAccess

/-! ## ECUManger (src/core/ecu_manager.py) -/

namespace ECUManger

/-- The `BINReadProgress` dataclass.  `total_bytes` is an `Int` because
`read_bin_file` computes it as `end_address - start_address` on Python
ints, which can be negative. -/
structure BINReadProgress where
  bytes_read : Nat
  total_bytes : Int
  current_address : Nat
  status : String
  error_message : String
deriving DecidableEq, Repr

/-- Protocol tag of an ECU descriptor (`"UDS" | "KWP" | "CAN"`). -/
inductive Protocol where
  | UDS
  | KWP
  | CAN
deriving DecidableEq, Repr

/-- The string form of a protocol tag as used in `ecu_id`. -/
def Protocol.tag : Protocol → String
  | .UDS => "UDS"
  | .KWP => "KWP"
  | .CAN => "CAN"

/-- The `ECUInfo` dataclass (identification strings that discovery
leaves empty are omitted). -/
structure ECUInfo where
  ecu_id : String
  protocol : Protocol
  address : Nat
deriving DecidableEq, Repr

/-- Build the `ecu_id` string, Python `f"{tag}_0x{address:03X}"`. -/
def mkEcuId (p : Protocol) (address : Nat) : String :=
  p.tag ++ "_0x" ++ padZero 3 (toHexUpper address)

/-- Environment seen by `_probe_ecu`: the raw reply frame (if any) each
address gives to the UDS DiagnosticSessionControl probe, to the KWP
StartCommunication probe, and to the raw CAN `[0x01, 0x00]` message
(`can_bus.send_raw_message` returns the received frame data as a list,
or `None`). -/
structure ProbeEnv where
  udsReply : Nat → Option (List Nat)
  kwpReply : Nat → Option (List Nat)
  canReply : Nat → Option (List Nat)

/-- `ECUManger._probe_ecu`: try UDS DiagnosticSessionControl, then KWP
StartCommunication (each counts only a parsed positive response), then a
raw CAN message (any non-empty reply data counts, matching the
truthiness test `if response:` on the returned list). -/
def probe_ecu (env : ProbeEnv) (address : Nat) : Option ECUInfo :=
  if isPositiveResponse ((env.udsReply address).bind UDSProtocol.parse_uds_response) then
    some ⟨mkEcuId .UDS address, .UDS, address⟩
  else if isPositiveResponse ((env.kwpReply address).bind KWPProtocol.parse_kwp_response) then
    some ⟨mkEcuId .KWP address, .KWP, address⟩
  else
    match env.canReply address with
    | some d => if d = [] then none else some ⟨mkEcuId .CAN address, .CAN, address⟩
    | none => none

/-- `ECUManger.scan_ecus`: probe `range(0x7E0, 0x7F0)` in order,
collecting every descriptor returned. -/
def scan_ecus (env : ProbeEnv) : List ECUInfo :=
  (List.range' 0x7E0 16).filterMap (probe_ecu env)

/-- Exit condition of the `while current_address < end_address` loop in
`read_bin_file`: `finished` is the normal exit, `failed` is the `break`
after `_read_memory_block` returned `None`, `securityFailed` is the
early return when security access fails (the loop never runs), and
`fuelOut` means the model ran out of fuel while the Python loop would
still be iterating. -/
inductive ReadExit where
  | finished
  | failed
  | securityFailed
  | fuelOut
deriving DecidableEq, Repr

/-- The read loop of `ECUManger.read_bin_file`.  `oracle k` is the value
of the k-th `_read_memory_block` call (`none` models a negative or
absent response, `some d` the payload of a positive response).  Every
call requests the default block size of 256 bytes — `read_bin_file`
invokes `_read_memory_block(current_address)` with no size argument.
The returned request list records each issued `(address, size)` pair. -/
def readLoop (oracle : Nat → Option (List Nat)) (endAddress : Nat) :
    Nat → Nat → Nat → List Nat → BINReadProgress →
    ReadExit × List Nat × BINReadProgress × List (Nat × Nat)
  | fuel, k, current, buf, prog =>
    if current < endAddress then
      match fuel with
      | 0 => (.fuelOut, buf, prog, [])
      | fuel' + 1 =>
        match oracle k with
        | none => (.failed, buf, prog, [(current, 256)])
        | some d =>
          let buf' := buf ++ d
          let prog' := { prog with
            bytes_read := buf'.length
            current_address := current + d.length }
          let rest := readLoop oracle endAddress fuel' (k + 1) (current + d.length) buf' prog'
          (rest.1, rest.2.1, rest.2.2.1, (current, 256) :: rest.2.2.2)
    else (.finished, buf, prog, [])

/-- Outcome of `ECUManger.read_bin_file`: the boolean return value, how
the loop exited, the final `self.bin_data`, the final
`self.read_progress`, and the issued memory-read requests. -/
structure ReadRunResult where
  ok : Bool
  exitKind : ReadExit
  bin_data : List Nat
  progress : BINReadProgress
  requests : List (Nat × Nat)
deriving DecidableEq, Repr

/-- `ECUManger.read_bin_file` with an ECU already selected.  The progress
record is initialised to `(0, end - start, start, "reading")`; the
security-access negotiation is abstracted by its boolean outcome
`securityOk` (on failure the method returns `False` with `bin_data`
still holding its previous contents `binPrev` and the progress record
left in the `"reading"` state); then the loop runs, and — whether it
exited normally or through the failure `break` — the source sets
`status = "complete"` and returns `True`.  A `fuelOut` run corresponds
to a Python loop that has not yet terminated, hence `none`. -/
def read_bin_file (oracle : Nat → Option (List Nat)) (fuel : Nat)
    (start_address end_address : Nat) (securityOk : Bool)
    (binPrev : List Nat) : Option ReadRunResult :=
  let prog0 : BINReadProgress :=
    ⟨0, (end_address : Int) - (start_address : Int), start_address, "reading", ""⟩
  if securityOk then
    let out := readLoop oracle end_address fuel 0 start_address [] prog0
    match out.1 with
    | .fuelOut => none
    | e => some ⟨true, e, out.2.1, { out.2.2.1 with status := "complete" }, out.2.2.2⟩
  else
    some ⟨false, .securityFailed, binPrev, prog0, []⟩

end ECUManger

/-! ## Scratch checks of the model on concrete inputs -/

example :
    UDSProtocol.parse_uds_response [0x7F, 0x27, 0x33] =
      some (.negative 0x27 0x33 "Security access denied") := by
  decide

example :
    UDSProtocol.format_address 0x12345 = [0x03, 0x01, 0x23, 0x45] := by
  decide

example :
    UDSProtocol.format_size 0x100 = [0x02, 0x01, 0x00] := by
  decide

example :
    SecurityAccess.default_seed_key_algorithm [0x11, 0x22, 0x33, 0x44] 1 =
      some [0x45, 0x76, 0x67, 0x10] := by
  decide

example :
    ECUManger.read_bin_file (fun _ => none) 1 0 256 true [] =
      some ⟨true, .failed, [], ⟨0, 256, 0, "complete", ""⟩, [(0, 256)]⟩ := by
  decide

example :
    ECUManger.read_bin_file (fun _ => some (List.replicate 256 0xAA)) 4 0 1024 true [] =
      some ⟨true, .finished, List.replicate 1024 0xAA,
        ⟨1024, 1024, 1024, "complete", ""⟩,
        [(0, 256), (256, 256), (512, 256), (768, 256)]⟩ := by
  decide

/-! ## Shared helper lemmas -/

/-- Masking with 0xFF is reduction modulo 256. -/
lemma and_0xFF_eq_mod (x : Nat) : x &&& 0xFF = x % 256 := by
  have h := Nat.and_pow_two_sub_one_eq_mod x 8
  norm_num at h
  exact h

/-- Right shift by 8 is division by 256. -/
lemma shiftRight8_eq_div (x : Nat) : x >>> 8 = x / 256 := by
  have h := Nat.shiftRight_eq_div_pow x 8
  norm_num at h
  exact h

/-- Right shift by 16 is division by 65536. -/
lemma shiftRight16_eq_div (x : Nat) : x >>> 16 = x / 65536 := by
  have h := Nat.shiftRight_eq_div_pow x 16
  norm_num at h
  exact h

/-- Right shift by 24 is division by 16777216. -/
lemma shiftRight24_eq_div (x : Nat) : x >>> 24 = x / 16777216 := by
  have h := Nat.shiftRight_eq_div_pow x 24
  norm_num at h
  exact h

/-- XOR of two bytes is a byte. -/
lemma xor_lt_256 {x y : Nat} (hx : x < 256) (hy : y < 256) : x ^^^ y < 256 := by
  have h8 : (256 : Nat) = 2 ^ 8 := by norm_num
  rw [h8] at hx hy ⊢
  exact Nat.xor_lt_two_pow hx hy

/-! ## Claim C1 -/

/-- C1: evaluation of the engine at a run whose first block read yields
no data.  The loop stops (exit kind `failed`) and `bytes_read = 0 =`
buffer length `≤ total_bytes = 256` as the claim demands, but the
progress status afterwards is `"complete"`, not `"error"`, and the
method returns `True`: `read_bin_file` marks every run complete, so the
claimed error status contradicts the code. -/
theorem read_engine_failed_block_marks_complete :
    ECUManger.read_bin_file (fun _ => none) 1 0 256 true [] =
      some ⟨true, .failed, [], ⟨0, 256, 0, "complete", ""⟩, [(0, 256)]⟩ := by
  decide

/-! ## Claim C2 -/

/-- C2: the UDS response parser cannot parse a standard positive
response.  The frame `[0x62, 0xDE, 0xAD]` is `SID 0x22 + 0x40` followed
by payload `[0xDE, 0xAD]`; the claim says the parser yields a positive
record with `sid = 0x22`, but the source compares the first byte with
the fixed marker `NRC_POSITIVE_RESPONSE = 0x40` and returns `None`
here.  It accepts instead `[0x40, sid, payload...]`, a framing in which
the first byte is a constant, contradicting the SID + 0x40 framing of
the ISO 14229 protocol the module says it implements. -/
theorem uds_positive_parse_fixed_marker_bug :
    UDSProtocol.parse_uds_response [0x62, 0xDE, 0xAD] = none ∧
    UDSProtocol.parse_uds_response [0x40, 0x22, 0xDE, 0xAD] =
      some (.positive (some 0x22) [0xDE, 0xAD]) ∧
    UDSProtocol.NRC_POSITIVE_RESPONSE = 0x40 := by
  refine ⟨by decide, by decide, rfl⟩

/-! ## Claim C3 -/

/-- C3: evaluation refuting the invariant `bytes_read ≤ total_bytes`
with equality iff `status == complete`.  In this run the only block
read fails, the engine stops with `bytes_read = 0` and
`total_bytes = 512`, yet the source still sets `status = "complete"`:
a completed status with `bytes_read ≠ total_bytes`. -/
theorem read_progress_equality_iff_complete_violated :
    ECUManger.read_bin_file (fun _ => none) 1 0 512 true [] =
      some ⟨true, .failed, [], ⟨0, 512, 0, "complete", ""⟩, [(0, 256)]⟩ ∧
    (0 : Nat) ≠ 512 := by
  refine ⟨by decide, by decide⟩

/-! ## Claim C5 -/

/-- C5 counterexample: a reversed range is not rejected.  With
`start_address = 5` and `end_address = 3` the claim says the call fails
before any read; the source instead runs zero loop iterations, returns
`True` and sets `status = "complete"` (with a negative `total_bytes`),
so the request is not rejected. -/
theorem reversed_range_not_rejected_cex :
    ECUManger.read_bin_file (fun _ => none) 3 5 3 true [] =
      some ⟨true, .finished, [], ⟨0, -2, 5, "complete", ""⟩, []⟩ := by
  decide

/-- C5 amended: for every `end_address < start_address` the engine
issues no memory-read request and leaves the buffer empty, but it does
not fail: it returns `True` with `status = "complete"`, `bytes_read = 0`
and the negative `total_bytes = end_address - start_address`. -/
theorem reversed_range_completes_without_reading
    (oracle : Nat → Option (List Nat)) (fuel start_address end_address : Nat)
    (h : end_address < start_address) :
    ECUManger.read_bin_file oracle fuel start_address end_address true [] =
      some ⟨true, .finished, [],
        ⟨0, (end_address : Int) - (start_address : Int), start_address, "complete", ""⟩,
        []⟩ := by
  have hnot : ¬ start_address < end_address := by omega
  have hloop : ECUManger.readLoop oracle end_address fuel 0 start_address []
      ⟨0, (end_address : Int) - (start_address : Int), start_address, "reading", ""⟩ =
      (.finished, [],
        ⟨0, (end_address : Int) - (start_address : Int), start_address, "reading", ""⟩,
        []) := by
    unfold ECUManger.readLoop
    rw [if_neg hnot]
  simp [ECUManger.read_bin_file, hloop]

/-- C5 witness: the amended theorem applied at the concrete reversed
range `[5, 3)`. -/
theorem reversed_range_completes_without_reading_witness :
    ECUManger.read_bin_file (fun _ => some [0xAA]) 2 5 3 true [] =
      some ⟨true, .finished, [], ⟨0, -2, 5, "complete", ""⟩, []⟩ := by
  have h := reversed_range_completes_without_reading (fun _ => some [0xAA]) 2 5 3
    (by decide)
  exact h.trans (by decide)

/-! ## Claim C8 -/

/-- C8 counterexample: the default key derivation does not return a key
for every level.  At `seed = [0x11]`, `level = 0x100` the per-byte value
`0x11 ^ 0x55 ^ 0x100` exceeds a byte, the Python bytearray assignment
raises `ValueError`, and the method returns `None` rather than the key
the claim demands. -/
theorem default_key_algorithm_large_level_cex :
    SecurityAccess.default_seed_key_algorithm [0x11] 0x100 = none := by
  decide

/-- C8 amended: for every non-empty seed of bytes and every level below
256, the default key derivation returns exactly the seed mapped through
per-byte XOR with `0x55` and the level — in particular a key of the same
length with `key[i] = seed[i] ^ 0x55 ^ level`. -/
theorem default_key_algorithm_xor (seed : List Nat) (level : Nat)
    (hne : seed ≠ []) (hbytes : ∀ b ∈ seed, b < 256) (hlevel : level < 256) :
    SecurityAccess.default_seed_key_algorithm seed level =
      some (seed.map fun b => b ^^^ 0x55 ^^^ level) ∧
    (seed.map fun b => b ^^^ 0x55 ^^^ level).length = seed.length := by
  have hall : ((seed.map fun b => b ^^^ 0x55 ^^^ level).all fun b => b < 256) = true := by
    rw [List.all_eq_true]
    intro x hx
    rcases List.mem_map.mp hx with ⟨b, hb, rfl⟩
    simpa using xor_lt_256 (xor_lt_256 (hbytes b hb) (by norm_num)) hlevel
  constructor
  · unfold SecurityAccess.default_seed_key_algorithm
    rw [if_neg hne]
    simp only [hall, if_true]
  · exact List.length_map _ _

/-- C8 witness: the spec scenario S4, `seed = [0x11, 0x22, 0x33, 0x44]`,
`level = 1`, yields `[0x45, 0x76, 0x67, 0x10]`. -/
theorem default_key_algorithm_xor_witness :
    SecurityAccess.default_seed_key_algorithm [0x11, 0x22, 0x33, 0x44] 1 =
      some [0x45, 0x76, 0x67, 0x10] := by
  have h := default_key_algorithm_xor [0x11, 0x22, 0x33, 0x44] 1
    (by decide) (by decide) (by decide)
  exact h.1.trans (by decide)

/-! ## Claim C4 -/

/-- C4 counterexample: the request size is not clamped to the remaining
range.  Reading `[0, 100)` the claim demands a first request of
`min(block_size, end - current) = min(256, 100) = 100` bytes; the source
calls `_read_memory_block(current_address)` with its default size and
requests 256 bytes. -/
theorem read_request_size_not_clamped_cex :
    (ECUManger.read_bin_file (fun _ => some (List.replicate 100 0xAA)) 1 0 100 true []).map
        (fun r => r.requests) = some [(0, 256)] ∧
    256 ≠ min 256 (100 - 0) := by
  refine ⟨by decide, by decide⟩


/-- Unfolding: the loop exits `finished` as soon as the current address
reaches the end address. -/
lemma readLoop_done (oracle : Nat → Option (List Nat))
    (endA fuel k current : Nat) (buf : List Nat) (prog : ECUManger.BINReadProgress)
    (h : ¬ current < endA) :
    ECUManger.readLoop oracle endA fuel k current buf prog =
      (.finished, buf, prog, []) := by
  rw [ECUManger.readLoop.eq_def]
  simp [h]

/-- Unfolding: exhausted fuel inside the range reports `fuelOut`. -/
lemma readLoop_fuelOut (oracle : Nat → Option (List Nat))
    (endA k current : Nat) (buf : List Nat) (prog : ECUManger.BINReadProgress)
    (h : current < endA) :
    ECUManger.readLoop oracle endA 0 k current buf prog =
      (.fuelOut, buf, prog, []) := by
  rw [ECUManger.readLoop.eq_def]
  simp [h]

/-- Unfolding: a block read with no data breaks out of the loop after
recording the 256-byte request at the current address. -/
lemma readLoop_step_none (oracle : Nat → Option (List Nat))
    (endA fuel k current : Nat) (buf : List Nat) (prog : ECUManger.BINReadProgress)
    (hlt : current < endA) (hor : oracle k = none) :
    ECUManger.readLoop oracle endA (fuel + 1) k current buf prog =
      (.failed, buf, prog, [(current, 256)]) := by
  rw [ECUManger.readLoop.eq_def]
  simp [hlt, hor]

/-- Unfolding: a positive block read appends the payload, advances the
current address by the payload length, updates the progress record and
iterates. -/
lemma readLoop_step_some (oracle : Nat → Option (List Nat))
    (endA fuel k current : Nat) (buf : List Nat) (prog : ECUManger.BINReadProgress)
    (d : List Nat) (hlt : current < endA) (hor : oracle k = some d) :
    ECUManger.readLoop oracle endA (fuel + 1) k current buf prog =
      ((ECUManger.readLoop oracle endA fuel (k + 1) (current + d.length) (buf ++ d)
          { prog with bytes_read := (buf ++ d).length,
                      current_address := current + d.length }).1,
       (ECUManger.readLoop oracle endA fuel (k + 1) (current + d.length) (buf ++ d)
          { prog with bytes_read := (buf ++ d).length,
                      current_address := current + d.length }).2.1,
       (ECUManger.readLoop oracle endA fuel (k + 1) (current + d.length) (buf ++ d)
          { prog with bytes_read := (buf ++ d).length,
                      current_address := current + d.length }).2.2.1,
       (current, 256) ::
         (ECUManger.readLoop oracle endA fuel (k + 1) (current + d.length) (buf ++ d)
            { prog with bytes_read := (buf ++ d).length,
                        current_address := current + d.length }).2.2.2) := by
  rw [ECUManger.readLoop.eq_def]
  simp [hlt, hor]

/-- Request trace of the read loop: every issued request asks for
exactly 256 bytes, and the i-th request's address is the starting
address advanced by the total length of the payloads actually returned
by the preceding block reads. -/
lemma readLoop_request_trace (oracle : Nat → Option (List Nat)) (endA : Nat) :
    ∀ fuel k current buf prog i,
      i < (ECUManger.readLoop oracle endA fuel k current buf prog).2.2.2.length →
      (ECUManger.readLoop oracle endA fuel k current buf prog).2.2.2.get? i =
        some (current + ∑ j ∈ Finset.range i, ((oracle (k + j)).getD []).length, 256) := by
  intro fuel
  induction fuel with
  | zero =>
    intro k current buf prog i h
    by_cases hlt : current < endA
    · rw [readLoop_fuelOut oracle endA k current buf prog hlt] at h
      simp at h
    · rw [readLoop_done oracle endA 0 k current buf prog hlt] at h
      simp at h
  | succ fuel ih =>
    intro k current buf prog i h
    by_cases hlt : current < endA
    · rcases hor : oracle k with _ | d
      · rw [readLoop_step_none oracle endA fuel k current buf prog hlt hor] at h ⊢
        simp only [List.length_cons, List.length_nil] at h
        match i, h with
        | 0, _ => simp
      · rw [readLoop_step_some oracle endA fuel k current buf prog d hlt hor] at h ⊢
        simp only [List.length_cons] at h
        match i, h with
        | 0, _ => simp
        | i' + 1, h =>
          have h' : i' < (ECUManger.readLoop oracle endA fuel (k + 1)
              (current + d.length) (buf ++ d)
              { prog with bytes_read := (buf ++ d).length,
                          current_address := current + d.length }).2.2.2.length := by
            omega
          have hrec := ih (k + 1) (current + d.length) (buf ++ d)
            { prog with bytes_read := (buf ++ d).length,
                        current_address := current + d.length } i' h'
          have hsum := Finset.sum_range_succ'
            (fun j => ((oracle (k + j)).getD []).length) i'
          simp only [List.get?_cons_succ]
          rw [hrec]
          refine congrArg some (Prod.ext ?_ rfl)
          simp only []
          rw [hsum]
          have hzero : ((oracle (k + 0)).getD []).length = d.length := by
            simp [hor]
          rw [hzero]
          have hcongr : (∑ j ∈ Finset.range i',
              ((oracle (k + (j + 1))).getD []).length) =
              ∑ j ∈ Finset.range i', ((oracle (k + 1 + j)).getD []).length := by
            refine Finset.sum_congr rfl ?_
            intro j _
            have hj : k + (j + 1) = k + 1 + j := by omega
            rw [hj]
          rw [hcongr]
          omega
    · rw [readLoop_done oracle endA (fuel + 1) k current buf prog hlt] at h
      simp at h

/-- A successful-return run of `read_bin_file` carries exactly the
request trace of its read loop. -/
lemma read_bin_file_requests (oracle : Nat → Option (List Nat))
    (fuel s e : Nat) (r : ECUManger.ReadRunResult)
    (hr : ECUManger.read_bin_file oracle fuel s e true [] = some r) :
    r.requests =
      (ECUManger.readLoop oracle e fuel 0 s []
        ⟨0, (e : Int) - (s : Int), s, "reading", ""⟩).2.2.2 := by
  simp only [ECUManger.read_bin_file] at hr
  cases hout : (ECUManger.readLoop oracle e fuel 0 s []
      ⟨0, (e : Int) - (s : Int), s, "reading", ""⟩).1 with
  | fuelOut =>
    rw [hout] at hr
    simp at hr
  | finished =>
    rw [hout] at hr
    simp at hr
    rw [← hr]
  | failed =>
    rw [hout] at hr
    simp at hr
    rw [← hr]
  | securityFailed =>
    rw [hout] at hr
    simp at hr
    rw [← hr]

/-- C4 amended: in every iteration of the memory-read loop the engine
issues a request of exactly the default block size 256 at
`current_address` — it does not clamp to `min(block_size, end - current)`
— and on a positive response it advances `current_address` by the
actual returned payload length, so the i-th request's address is the
start address plus the total payload length returned by the preceding
reads. -/
theorem read_requests_fixed_block_size_advance_actual
    (oracle : Nat → Option (List Nat)) (fuel start_address end_address : Nat)
    (r : ECUManger.ReadRunResult)
    (hr : ECUManger.read_bin_file oracle fuel start_address end_address true [] = some r)
    (i : Nat) (hi : i < r.requests.length) :
    r.requests.get? i =
      some (start_address + ∑ j ∈ Finset.range i, ((oracle j).getD []).length, 256) := by
  have hreq := read_bin_file_requests oracle fuel start_address end_address r hr
  rw [hreq] at hi ⊢
  have htrace := readLoop_request_trace oracle end_address fuel 0 start_address []
    ⟨0, (end_address : Int) - (start_address : Int), start_address, "reading", ""⟩ i hi
  simpa using htrace

/-- C4 witness: a two-block run starting at 16; the second request goes
to address `16 + 3` because the first read returned 3 bytes, and both
requests ask for 256 bytes. -/
theorem read_requests_fixed_block_size_advance_actual_witness :
    (ECUManger.read_bin_file (fun _ => some [0xAA, 0xBB, 0xCC]) 2 16 20 true [] =
      some ⟨true, .finished, [0xAA, 0xBB, 0xCC, 0xAA, 0xBB, 0xCC],
        ⟨6, 4, 22, "complete", ""⟩, [(16, 256), (19, 256)]⟩) ∧
    (ECUManger.ReadRunResult.mk true .finished [0xAA, 0xBB, 0xCC, 0xAA, 0xBB, 0xCC]
        ⟨6, 4, 22, "complete", ""⟩ [(16, 256), (19, 256)]).requests.get? 1 =
      some (16 + ∑ j ∈ Finset.range 1,
        (((fun _ => some [0xAA, 0xBB, 0xCC]) j).getD ([] : List Nat)).length, 256) := by
  constructor
  · decide
  · exact read_requests_fixed_block_size_advance_actual
      (fun _ => some [0xAA, 0xBB, 0xCC]) 2 16 20
      ⟨true, .finished, [0xAA, 0xBB, 0xCC, 0xAA, 0xBB, 0xCC],
        ⟨6, 4, 22, "complete", ""⟩, [(16, 256), (19, 256)]⟩
      (by decide) 1 (by decide)

/-! ## Claim C6 -/

/-- C6: for every 32-bit value the address/size encoding shared by the
UDS and KWP memory services (all four formatter functions agree) emits
one length byte n with 1 ≤ n ≤ 4 followed by the n big-endian bytes of
the value, n is the smallest byte count that fits the value, and the
reference decoder (length byte, then that many big-endian bytes)
recovers the value. -/
theorem length_prefix_encoding_roundtrip_minimal (v : Nat) (h : v < 2 ^ 32) :
    KWPProtocol.format_address v = UDSProtocol.format_address v ∧
    KWPProtocol.format_size v = UDSProtocol.format_address v ∧
    UDSProtocol.format_size v = UDSProtocol.format_address v ∧
    ∃ n, 1 ≤ n ∧ n ≤ 4 ∧
      (UDSProtocol.format_address v).head? = some n ∧
      (UDSProtocol.format_address v).length = n + 1 ∧
      v < 256 ^ n ∧
      (∀ m, 1 ≤ m → v < 256 ^ m → n ≤ m) ∧
      decode_length_prefixed (UDSProtocol.format_address v) = some v := by
  refine ⟨rfl, rfl, rfl, ?_⟩
  by_cases h1 : v ≤ 0xFF
  · refine ⟨1, by norm_num, by norm_num, ?_, ?_, ?_, ?_, ?_⟩
    · simp [UDSProtocol.format_address, h1]
    · simp [UDSProtocol.format_address, h1]
    · norm_num
      omega
    · intro m hm _
      exact hm
    · simp [UDSProtocol.format_address, h1, decode_length_prefixed]
  · by_cases h2 : v ≤ 0xFFFF
    · refine ⟨2, by norm_num, by norm_num, ?_, ?_, ?_, ?_, ?_⟩
      · simp [UDSProtocol.format_address, h1, h2]
      · simp [UDSProtocol.format_address, h1, h2]
      · norm_num
        omega
      · intro m hm hv
        by_contra hc
        push_neg at hc
        interval_cases m
        norm_num at hv
        omega
      · simp [UDSProtocol.format_address, h1, h2, decode_length_prefixed,
          and_0xFF_eq_mod, shiftRight8_eq_div]
        omega
    · by_cases h3 : v ≤ 0xFFFFFF
      · refine ⟨3, by norm_num, by norm_num, ?_, ?_, ?_, ?_, ?_⟩
        · simp [UDSProtocol.format_address, h1, h2, h3]
        · simp [UDSProtocol.format_address, h1, h2, h3]
        · norm_num
          omega
        · intro m hm hv
          by_contra hc
          push_neg at hc
          interval_cases m <;> norm_num at hv <;> omega
        · simp [UDSProtocol.format_address, h1, h2, h3, decode_length_prefixed,
            and_0xFF_eq_mod, shiftRight8_eq_div, shiftRight16_eq_div]
          omega
      · refine ⟨4, by norm_num, by norm_num, ?_, ?_, ?_, ?_, ?_⟩
        · simp [UDSProtocol.format_address, h1, h2, h3]
        · simp [UDSProtocol.format_address, h1, h2, h3]
        · norm_num
          omega
        · intro m hm hv
          by_contra hc
          push_neg at hc
          interval_cases m <;> norm_num at hv <;> omega
        · simp [UDSProtocol.format_address, h1, h2, h3, decode_length_prefixed,
            and_0xFF_eq_mod, shiftRight8_eq_div, shiftRight16_eq_div,
            shiftRight24_eq_div]
          omega

/-- C6 witness: the encoding at `0x00012345` (spec scenario S1's address
part): three length-prefixed bytes that decode back. -/
theorem length_prefix_encoding_roundtrip_minimal_witness :
    (0x12345 < 2 ^ 32) ∧
    decode_length_prefixed (UDSProtocol.format_address 0x12345) = some 0x12345 := by
  refine ⟨by norm_num, ?_⟩
  rcases length_prefix_encoding_roundtrip_minimal 0x12345 (by norm_num) with
    ⟨-, -, -, n, -, -, -, -, -, -, hdec⟩
  exact hdec

/-! ## Claim C10 -/

/-- A key absent from an association list looks up to `none`. -/
lemma lookup_eq_none_of_not_mem_keys {α : Type} (l : List (String × α))
    (name : String) (h : name ∉ l.map Prod.fst) : l.lookup name = none := by
  induction l with
  | nil => rfl
  | cons p rest ih =>
    simp only [List.map_cons, List.mem_cons] at h
    push_neg at h
    cases p with
    | mk k v =>
      have hne : (name == k) = false := beq_eq_false_iff_ne.mpr h.1
      simp only [List.lookup]
      rw [hne]
      exact ih h.2

/-- C10: an algorithm name that is not in the registry does not make
security access fail — both the UDS and the KWP negotiators silently
fall back to the default XOR algorithm and behave exactly as if
`"default"` had been requested, for every transport behaviour. -/
theorem unknown_algorithm_falls_back_to_default (algorithm : String)
    (h : algorithm ∉ SecurityAccess.seed_key_algorithms.map Prod.fst) :
    (∀ oracle, SecurityAccess.perform_uds_security_access oracle algorithm =
      SecurityAccess.perform_uds_security_access oracle "default") ∧
    (∀ oracle, SecurityAccess.perform_kwp_security_access oracle algorithm =
      SecurityAccess.perform_kwp_security_access oracle "default") := by
  have hlook : SecurityAccess.lookup_algorithm algorithm =
      SecurityAccess.default_seed_key_algorithm := by
    unfold SecurityAccess.lookup_algorithm
    rw [lookup_eq_none_of_not_mem_keys _ _ h]
    rfl
  have hdef : SecurityAccess.lookup_algorithm "default" =
      SecurityAccess.default_seed_key_algorithm := rfl
  constructor
  · intro oracle
    unfold SecurityAccess.perform_uds_security_access
    rw [hlook, hdef]
  · intro oracle
    unfold SecurityAccess.perform_kwp_security_access
    rw [hlook, hdef]

/-- C10 witness: the unregistered name `"nissan"` drives the negotiator
exactly like `"default"`. -/
theorem unknown_algorithm_falls_back_to_default_witness :
    SecurityAccess.perform_uds_security_access (fun _ => none) "nissan" =
      SecurityAccess.perform_uds_security_access (fun _ => none) "default" :=
  (unknown_algorithm_falls_back_to_default "nissan" (by decide)).1 (fun _ => none)

/-! ## Claim C9 -/

/-- A descriptor produced by probing address `a` carries address `a`. -/
lemma probe_ecu_address (env : ECUManger.ProbeEnv) (a : Nat)
    (e : ECUManger.ECUInfo) (h : ECUManger.probe_ecu env a = some e) :
    e.address = a := by
  unfold ECUManger.probe_ecu at h
  split_ifs at h with h1 h2
  · injection h with h'
    rw [← h']
  · injection h with h'
    rw [← h']
  · split at h
    · split at h
      · cases h
      · injection h with h'
        rw [← h']
    · cases h

/-- C9: discovery sweeps exactly the addresses 0x7E0 through 0x7EF in
increasing order; at each address the UDS probe is tried first, then
KWP, then raw CAN, the first success determining the protocol tag of
the single descriptor the address can contribute; distinct descriptors
never share an address and the scan result has no duplicates. -/
theorem ecu_discovery_sweep_first_probe_wins (env : ECUManger.ProbeEnv) :
    ECUManger.scan_ecus env =
      [0x7E0, 0x7E1, 0x7E2, 0x7E3, 0x7E4, 0x7E5, 0x7E6, 0x7E7, 0x7E8, 0x7E9,
       0x7EA, 0x7EB, 0x7EC, 0x7ED, 0x7EE, 0x7EF].filterMap (ECUManger.probe_ecu env) ∧
    (∀ a, isPositiveResponse ((env.udsReply a).bind UDSProtocol.parse_uds_response) = true →
      ECUManger.probe_ecu env a = some ⟨ECUManger.mkEcuId .UDS a, .UDS, a⟩) ∧
    (∀ a, isPositiveResponse ((env.udsReply a).bind UDSProtocol.parse_uds_response) = false →
      isPositiveResponse ((env.kwpReply a).bind KWPProtocol.parse_kwp_response) = true →
      ECUManger.probe_ecu env a = some ⟨ECUManger.mkEcuId .KWP a, .KWP, a⟩) ∧
    (∀ a d, isPositiveResponse ((env.udsReply a).bind UDSProtocol.parse_uds_response) = false →
      isPositiveResponse ((env.kwpReply a).bind KWPProtocol.parse_kwp_response) = false →
      env.canReply a = some d → d ≠ [] →
      ECUManger.probe_ecu env a = some ⟨ECUManger.mkEcuId .CAN a, .CAN, a⟩) ∧
    (∀ a, isPositiveResponse ((env.udsReply a).bind UDSProtocol.parse_uds_response) = false →
      isPositiveResponse ((env.kwpReply a).bind KWPProtocol.parse_kwp_response) = false →
      (env.canReply a).getD [] = [] →
      ECUManger.probe_ecu env a = none) ∧
    (∀ e1 e2, e1 ∈ ECUManger.scan_ecus env → e2 ∈ ECUManger.scan_ecus env →
      e1.address = e2.address → e1 = e2) ∧
    (ECUManger.scan_ecus env).Nodup := by
  have hrange : List.range' 0x7E0 16 =
      [0x7E0, 0x7E1, 0x7E2, 0x7E3, 0x7E4, 0x7E5, 0x7E6, 0x7E7, 0x7E8, 0x7E9,
       0x7EA, 0x7EB, 0x7EC, 0x7ED, 0x7EE, 0x7EF] := by decide
  refine ⟨?_, ?_, ?_, ?_, ?_, ?_, ?_⟩
  · unfold ECUManger.scan_ecus
    rw [hrange]
  · intro a huds
    simp [ECUManger.probe_ecu, huds]
  · intro a huds hkwp
    simp [ECUManger.probe_ecu, huds, hkwp]
  · intro a d huds hkwp hcan hd
    simp [ECUManger.probe_ecu, huds, hkwp, hcan, hd]
  · intro a huds hkwp hcan
    rcases hc : env.canReply a with _ | d
    · simp [ECUManger.probe_ecu, huds, hkwp, hc]
    · rw [hc] at hcan
      simp at hcan
      simp [ECUManger.probe_ecu, huds, hkwp, hc, hcan]
  · intro e1 e2 h1 h2 haddr
    unfold ECUManger.scan_ecus at h1 h2
    rcases List.mem_filterMap.mp h1 with ⟨a1, -, hp1⟩
    rcases List.mem_filterMap.mp h2 with ⟨a2, -, hp2⟩
    have ha1 := probe_ecu_address env a1 e1 hp1
    have ha2 := probe_ecu_address env a2 e2 hp2
    have : a1 = a2 := by omega
    rw [this] at hp1
    rw [hp1] at hp2
    injection hp2
  · unfold ECUManger.scan_ecus
    refine List.Nodup.filterMap ?_ (List.nodup_range' _ _)
    intro a a' b hb hb'
    have h1 := probe_ecu_address env a b (Option.mem_def.mp hb)
    have h2 := probe_ecu_address env a' b (Option.mem_def.mp hb')
    omega

/-- C9 witness: the spec scenario S5 — only address 0x7E8 answers the
UDS probe positively; the sweep finds exactly one UDS descriptor at
0x7E8. -/
theorem ecu_discovery_sweep_first_probe_wins_witness :
    ECUManger.probe_ecu
        ⟨fun a => if a = 0x7E8 then some [0x40, 0x50] else none,
         fun _ => none, fun _ => none⟩ 0x7E8 =
      some ⟨ECUManger.mkEcuId .UDS 0x7E8, .UDS, 0x7E8⟩ :=
  (ecu_discovery_sweep_first_probe_wins
    ⟨fun a => if a = 0x7E8 then some [0x40, 0x50] else none,
     fun _ => none, fun _ => none⟩).2.1 0x7E8 (by decide)

/-! ## Claim C7 -/

/-- The seed-request sub-function is always odd for positive levels. -/
lemma seed_level_odd (level : Nat) (h : 0 < level) :
    SecurityAccess.seed_level level % 2 = 1 := by
  unfold SecurityAccess.seed_level
  split <;> omega

/-- The key-send sub-function is always even. -/
lemma key_level_even (level : Nat) : SecurityAccess.key_level level % 2 = 0 := by
  unfold SecurityAccess.key_level
  split <;> omega

/-- Sending SecurityAccess with an odd sub-function transmits
`[0x27, level]` and consumes one exchange. -/
lemma uds_send_odd (oracle : Nat → Option (List Nat)) (k level : Nat)
    (key : Option (List Nat)) (h : level % 2 = 1) :
    SecurityAccess.uds_send_security_access oracle k level key =
      ((oracle k).bind UDSProtocol.parse_uds_response, k + 1,
        [.send [UDSProtocol.SID_SECURITY_ACCESS, level]]) := by
  unfold SecurityAccess.uds_send_security_access
  rw [if_pos h]

/-- Sending SecurityAccess with an even sub-function and a non-empty
key transmits `[0x27, level] + key` and consumes one exchange. -/
lemma uds_send_even_key (oracle : Nat → Option (List Nat)) (k level : Nat)
    (ks : List Nat) (h : level % 2 = 0) (hk : ks ≠ []) :
    SecurityAccess.uds_send_security_access oracle k level (some ks) =
      ((oracle k).bind UDSProtocol.parse_uds_response, k + 1,
        [.send ([UDSProtocol.SID_SECURITY_ACCESS, level] ++ ks)]) := by
  unfold SecurityAccess.uds_send_security_access
  rw [if_neg (by omega)]
  simp [hk]

/-- C7: the negotiator tries the levels [1, 2, 3, 5, 7] in that order,
stopping at the first success and threading the exchange counter
through failures; at each level L it first sends the seed request with
sub-function `L if odd else L - 1`, gives up on the level (after that
single exchange) when the seed response is not positive or its payload
is empty, otherwise sends the derived key with sub-function
`L if even else L + 1`; a key reply rejected with NRC 0x37 triggers a
1-second sleep and exactly one retry of the key reply, any other
failure ends the level attempt. -/
theorem security_negotiation_levels_and_retry :
    SecurityAccess.security_levels = [1, 2, 3, 5, 7] ∧
    (∀ oracle algorithm,
      SecurityAccess.perform_uds_security_access oracle algorithm =
        SecurityAccess.perform_levels SecurityAccess.perform_security_level oracle
          (SecurityAccess.lookup_algorithm algorithm) [1, 2, 3, 5, 7] 0) ∧
    (∀ attempt oracle alg k level rest, (attempt oracle alg k level).1 = true →
      SecurityAccess.perform_levels attempt oracle alg (level :: rest) k =
        attempt oracle alg k level) ∧
    (∀ attempt oracle alg k level rest, (attempt oracle alg k level).1 = false →
      SecurityAccess.perform_levels attempt oracle alg (level :: rest) k =
        ((SecurityAccess.perform_levels attempt oracle alg rest
            (attempt oracle alg k level).2.1).1,
         (SecurityAccess.perform_levels attempt oracle alg rest
            (attempt oracle alg k level).2.1).2.1,
         (attempt oracle alg k level).2.2 ++
           (SecurityAccess.perform_levels attempt oracle alg rest
              (attempt oracle alg k level).2.1).2.2)) ∧
    (∀ oracle alg k level, 0 < level →
      isPositiveResponse ((oracle k).bind UDSProtocol.parse_uds_response) = false →
      SecurityAccess.perform_security_level oracle alg k level =
        (false, k + 1,
          [.send [UDSProtocol.SID_SECURITY_ACCESS, SecurityAccess.seed_level level]])) ∧
    (∀ oracle alg k level s, 0 < level →
      (oracle k).bind UDSProtocol.parse_uds_response = some (.positive s []) →
      SecurityAccess.perform_security_level oracle alg k level =
        (false, k + 1,
          [.send [UDSProtocol.SID_SECURITY_ACCESS, SecurityAccess.seed_level level]])) ∧
    (∀ oracle alg k level s d key, 0 < level →
      (oracle k).bind UDSProtocol.parse_uds_response = some (.positive s d) →
      d ≠ [] → alg d level = some key → key ≠ [] →
      (isPositiveResponse ((oracle (k + 1)).bind UDSProtocol.parse_uds_response) = true →
        SecurityAccess.perform_security_level oracle alg k level =
          (true, k + 2,
            [.send [UDSProtocol.SID_SECURITY_ACCESS, SecurityAccess.seed_level level],
             .send ([UDSProtocol.SID_SECURITY_ACCESS, SecurityAccess.key_level level]
               ++ key)])) ∧
      ((oracle (k + 1)).bind UDSProtocol.parse_uds_response = none →
        SecurityAccess.perform_security_level oracle alg k level =
          (false, k + 2,
            [.send [UDSProtocol.SID_SECURITY_ACCESS, SecurityAccess.seed_level level],
             .send ([UDSProtocol.SID_SECURITY_ACCESS, SecurityAccess.key_level level]
               ++ key)])) ∧
      (∀ s2 e2, (oracle (k + 1)).bind UDSProtocol.parse_uds_response =
          some (.negative s2 0x37 e2) →
        SecurityAccess.perform_security_level oracle alg k level =
          (isPositiveResponse ((oracle (k + 2)).bind UDSProtocol.parse_uds_response),
           k + 3,
            [.send [UDSProtocol.SID_SECURITY_ACCESS, SecurityAccess.seed_level level],
             .send ([UDSProtocol.SID_SECURITY_ACCESS, SecurityAccess.key_level level]
               ++ key),
             .sleep 1,
             .send ([UDSProtocol.SID_SECURITY_ACCESS, SecurityAccess.key_level level]
               ++ key)])) ∧
      (∀ s2 n2 e2, (oracle (k + 1)).bind UDSProtocol.parse_uds_response =
          some (.negative s2 n2 e2) → n2 ≠ 0x37 →
        SecurityAccess.perform_security_level oracle alg k level =
          (false, k + 2,
            [.send [UDSProtocol.SID_SECURITY_ACCESS, SecurityAccess.seed_level level],
             .send ([UDSProtocol.SID_SECURITY_ACCESS, SecurityAccess.key_level level]
               ++ key)]))) := by
  refine ⟨rfl, fun oracle algorithm => rfl, ?_, ?_, ?_, ?_, ?_⟩
  · intro attempt oracle alg k level rest h
    simp only [SecurityAccess.perform_levels, h, if_true]
    exact Prod.ext h.symm rfl
  · intro attempt oracle alg k level rest h
    simp [SecurityAccess.perform_levels, h]
  · intro oracle alg k level h0 hneg
    have hodd := seed_level_odd level h0
    rcases hr : (oracle k).bind UDSProtocol.parse_uds_response with _ | r
    · simp [SecurityAccess.perform_security_level,
        SecurityAccess.perform_security_level_with,
        uds_send_odd oracle k (SecurityAccess.seed_level level) none hodd, hr]
    · rw [hr] at hneg
      cases r with
      | positive s d => simp [isPositiveResponse] at hneg
      | negative s n e =>
        simp [SecurityAccess.perform_security_level,
          SecurityAccess.perform_security_level_with,
          uds_send_odd oracle k (SecurityAccess.seed_level level) none hodd, hr]
  · intro oracle alg k level s h0 hseed
    have hodd := seed_level_odd level h0
    simp [SecurityAccess.perform_security_level,
      SecurityAccess.perform_security_level_with,
      uds_send_odd oracle k (SecurityAccess.seed_level level) none hodd, hseed]
  · intro oracle alg k level s d key h0 hseed hd halg hkey
    have hodd := seed_level_odd level h0
    have heven := key_level_even level
    have hkeysend := uds_send_even_key oracle (k + 1)
      (SecurityAccess.key_level level) key heven hkey
    have hretrysend := uds_send_even_key oracle (k + 2)
      (SecurityAccess.key_level level) key heven hkey
    refine ⟨?_, ?_, ?_, ?_⟩
    · intro hpos
      rcases hr2 : (oracle (k + 1)).bind UDSProtocol.parse_uds_response with _ | r2
      · rw [hr2] at hpos
        simp [isPositiveResponse] at hpos
      · rw [hr2] at hpos
        cases r2 with
        | positive s2 d2 =>
          simp [SecurityAccess.perform_security_level,
            SecurityAccess.perform_security_level_with,
            uds_send_odd oracle k (SecurityAccess.seed_level level) none hodd,
            hseed, hd, halg, hkey, hkeysend, hr2, isPositiveResponse]
        | negative s2 n2 e2 => simp [isPositiveResponse] at hpos
    · intro hnone
      simp [SecurityAccess.perform_security_level,
        SecurityAccess.perform_security_level_with,
        uds_send_odd oracle k (SecurityAccess.seed_level level) none hodd,
        hseed, hd, halg, hkey, hkeysend, hnone, isPositiveResponse, nrcOfResponse]
    · intro s2 e2 hneg
      simp [SecurityAccess.perform_security_level,
        SecurityAccess.perform_security_level_with,
        uds_send_odd oracle k (SecurityAccess.seed_level level) none hodd,
        hseed, hd, halg, hkey, hkeysend, hretrysend, hneg,
        isPositiveResponse, nrcOfResponse]
    · intro s2 n2 e2 hneg hn37
      simp [SecurityAccess.perform_security_level,
        SecurityAccess.perform_security_level_with,
        uds_send_odd oracle k (SecurityAccess.seed_level level) none hodd,
        hseed, hd, halg, hkey, hkeysend, hneg,
        isPositiveResponse, nrcOfResponse, hn37]

/-- C7 witness: level 2 with a silent transport — the seed request goes
out with sub-function `2 - 1 = 1`, the missing reply skips the level
after that single exchange. -/
theorem security_negotiation_levels_and_retry_witness :
    SecurityAccess.perform_security_level (fun _ => none)
        SecurityAccess.default_seed_key_algorithm 0 2 =
      (false, 1, [.send [0x27, 1]]) := by
  have h := security_negotiation_levels_and_retry.2.2.2.2.1
    (fun _ => none) SecurityAccess.default_seed_key_algorithm 0 2
    (by decide) (by decide)
  exact h.trans (by decide)
